import Mathlib

/-!
Verification of the Zookeeper's Challenge pipeline
(`src/zookeeper_challenge.cpp`) against its natural-language
specification.  Strings are modelled as lists of characters; the C++
iostream extraction operators, `std::stoi`, `std::map` containers and the
class hierarchy are embedded as executable Lean functions, and the claims
of the specification are settled as theorems about those functions.
-/

deriving instance DecidableEq for Except

namespace Zoo

/-- Strings of the C++ program, modelled as lists of characters. -/
abbrev Str := List Char

/-- Character data of a Lean string literal. -/
def str (s : String) : Str := s.data

/-- `std::isspace` in the default C locale: space, \t, \n, \v, \f, \r. -/
def isSpaceB (c : Char) : Bool :=
  c.toNat = 32 || c.toNat = 9 || c.toNat = 10 || c.toNat = 11 ||
  c.toNat = 12 || c.toNat = 13

/-- ASCII decimal-digit test (as used by stream numeric extraction). -/
def isDigitB (c : Char) : Bool :=
  48 ≤ c.toNat && c.toNat ≤ 57

/-- `std::tolower` in the default C locale: maps A–Z to a–z, leaves the
rest unchanged. -/
def asciiLower (c : Char) : Char :=
  if 65 ≤ c.toNat && c.toNat ≤ 90 then Char.ofNat (c.toNat + 32) else c

/-- `toLower` of the source: lowercases every character. -/
def toLower (s : Str) : Str := s.map asciiLower

/-- `trim` of the source: drops leading and trailing whitespace. -/
def trim (s : Str) : Str :=
  ((s.dropWhile isSpaceB).reverse.dropWhile isSpaceB).reverse

/-- Index of the first occurrence of `pat` in `l` (`std::string::find`). -/
def findSubIdx : Str → Str → Option Nat
  | l, pat =>
    if pat.isPrefixOf l then some 0
    else match l with
      | [] => none
      | _ :: cs => (findSubIdx cs pat).map (· + 1)

/-- One step of the `split` loop of the source: cut before each occurrence
of the delimiter; a non-empty trailing remainder is kept.  The fuel
argument bounds the number of cuts (the delimiters used by the program are
non-empty, so `value.length` cuts always suffice). -/
def splitFuel (delim : Str) : Nat → Str → List Str
  | 0, rem => if rem = [] then [] else [rem]
  | fuel + 1, rem =>
    match findSubIdx rem delim with
    | some pos => rem.take pos :: splitFuel delim fuel (rem.drop (pos + delim.length))
    | none => if rem = [] then [] else [rem]

/-- `split` of the source. -/
def split (value delim : Str) : List Str := splitFuel delim value.length value

/-- A calendar date as the source's `Date` struct (three C++ `int`s). -/
structure Date where
  year : Int
  month : Int
  day : Int
deriving DecidableEq, Repr

/-- Error taxonomy of the program (all exceptions reaching `main`). -/
inductive ZooError where
  | io (msg : Str)
  | fmt (msg : Str)
  | unsupported (msg : Str)
  | numeric (msg : Str)
deriving DecidableEq, Repr

/-- Accumulating decimal scan: consume the maximal digit prefix,
returning the value accumulated from `acc` and the rest of the input. -/
def readDigits : Nat → Str → Nat × Str
  | acc, [] => (acc, [])
  | acc, c :: cs =>
    if isDigitB c then readDigits (10 * acc + (c.toNat - 48)) cs else (acc, c :: cs)

/-- Unsigned part of stream integer extraction: requires a leading digit. -/
def readUIntIs : Str → Option (Nat × Str)
  | [] => none
  | c :: cs => if isDigitB c then some (readDigits 0 (c :: cs)) else none

/-- `std::istream >> (int&)`: skip whitespace, optional sign, at least one
digit; values outside the `int` range set `failbit` (modelled as `none`). -/
def readIntIs (l : Str) : Option (Int × Str) :=
  match l.dropWhile isSpaceB with
  | [] => none
  | c :: cs =>
    if c = '-' then
      (readUIntIs cs).bind fun vr =>
        if vr.1 ≤ 2147483648 then some (-(vr.1 : Int), vr.2) else none
    else if c = '+' then
      (readUIntIs cs).bind fun vr =>
        if vr.1 ≤ 2147483647 then some ((vr.1 : Int), vr.2) else none
    else
      (readUIntIs (c :: cs)).bind fun vr =>
        if vr.1 ≤ 2147483647 then some ((vr.1 : Int), vr.2) else none

/-- `std::istream >> (char&)`: skip whitespace, take the next character. -/
def readCharIs (l : Str) : Option (Char × Str) :=
  match l.dropWhile isSpaceB with
  | [] => none
  | c :: cs => some (c, cs)

/-- `std::istream >> (std::string&)`: skip whitespace, take the maximal
non-whitespace token; fails at end of input. -/
def readTokenIs (l : Str) : Option (Str × Str) :=
  match l.dropWhile isSpaceB with
  | [] => none
  | c :: cs => some ((c :: cs).takeWhile (fun d => !isSpaceB d),
                     (c :: cs).dropWhile (fun d => !isSpaceB d))

/-- `parseIsoDate` of the source: `ss >> year >> dash1 >> month >> dash2
>> day`, then both separators must be `'-'`; anything after the day is
ignored by the stream reads. -/
def parseIsoDate (s : Str) : Except ZooError Date :=
  let err : Except ZooError Date := .error (.fmt (str "Invalid ISO date: " ++ s))
  match readIntIs s with
  | none => err
  | some (y, r1) =>
    match readCharIs r1 with
    | none => err
    | some (d1, r2) =>
      match readIntIs r2 with
      | none => err
      | some (m, r3) =>
        match readCharIs r3 with
        | none => err
        | some (d2, r4) =>
          match readIntIs r4 with
          | none => err
          | some (d, _) =>
            if d1 = '-' ∧ d2 = '-' then .ok ⟨y, m, d⟩ else err

/-- Big-endian decimal digits of `n` (empty for 0), as printed by
`operator<<` for non-negative `int`; the fuel is an upper bound on the
digit count. -/
def natReprAux : Nat → Nat → Str
  | 0, _ => []
  | fuel + 1, n =>
    if n = 0 then [] else natReprAux fuel (n / 10) ++ [Nat.digitChar (n % 10)]

/-- Decimal rendering of a natural number. -/
def natRepr (n : Nat) : Str := if n = 0 then ['0'] else natReprAux n n

/-- Decimal rendering of a C++ `int` value. -/
def intRepr (i : Int) : Str :=
  if i < 0 then '-' :: natRepr i.natAbs else natRepr i.toNat

/-- `std::setw(w)` with `std::setfill('0')` (right-adjusted): left-pad the
rendered text with `'0'` up to width `w`; never truncates. -/
def padLeft (w : Nat) (l : Str) : Str :=
  List.replicate (w - l.length) '0' ++ l

/-- `formatIsoDate` of the source: zero-padded 4-digit year and 2-digit
month and day, joined by `-`. -/
def formatIsoDate (d : Date) : Str :=
  padLeft 4 (intRepr d.year) ++ '-' :: (padLeft 2 (intRepr d.month) ++
    '-' :: padLeft 2 (intRepr d.day))

/-- The fixed season table of `genBirthDay`. -/
def seasonToDate : List (Str × (Int × Int)) :=
  [(str "autumn", (9, 15)), (str "fall", (9, 15)), (str "spring", (3, 15)),
   (str "summer", (6, 15)), (str "winter", (12, 15))]

/-- `genBirthDay` of the source: birth year is the arrival year minus the
age; month/day come from the season table when the lowercased season is a
key, otherwise from the arrival date. -/
def genBirthDay (age : Int) (season : Str) (arrivalDate : Str) :
    Except ZooError Str := do
  let arrival ← parseIsoDate arrivalDate
  let md := match seasonToDate.lookup (toLower season) with
    | some p => p
    | none => (arrival.month, arrival.day)
  return formatIsoDate ⟨arrival.year - age, md.1, md.2⟩

/-- `speciesPrefix` of the source: fixed two-letter code for the four
supported species, else an unsupported-species error. -/
def speciesPrefix (species : Str) : Except ZooError Str :=
  let lowered := toLower species
  if lowered = str "hyena" then .ok (str "Hy")
  else if lowered = str "lion" then .ok (str "Li")
  else if lowered = str "tiger" then .ok (str "Ti")
  else if lowered = str "bear" then .ok (str "Be")
  else .error (.unsupported (str "Unsupported species: " ++ species))

/-- Per-prefix id counters (`std::map<std::string,int>` accessed only
through `operator[]`, starting at 0). -/
def Counters := Str → Nat

/-- `genUniqueId` of the source: increment the counter of the species'
prefix and render `{prefix}{counter:02d}` (minimum width 2). -/
def genUniqueId (species : Str) (counters : Counters) :
    Except ZooError (Str × Counters) := do
  let prefx ← speciesPrefix species
  let next := counters prefx + 1
  return (prefx ++ padLeft 2 (natRepr next),
          fun k => if k = prefx then next else counters k)

/-- `ParsedAnimalRow` of the source. -/
structure ParsedAnimalRow where
  arrivalDate : Str
  age : Int
  sex : Str
  species : Str
  birthSeason : Str
  color : Str
  weight : Int
  origin : Str
deriving DecidableEq, Repr

/-- Segment 1 of an arrival line: `ss >> age >> yearToken >> oldToken >>
sex >> species`, sex and species lowercased; any failed extraction makes
`ss.fail()` true. -/
def parseAgeSexSpecies (seg : Str) : Except ZooError (Int × Str × Str) :=
  match (do
    let (age, r1) ← readIntIs seg
    let (_, r2) ← readTokenIs r1
    let (_, r3) ← readTokenIs r2
    let (sex, r4) ← readTokenIs r3
    let (species, _) ← readTokenIs r4
    return (age, toLower sex, toLower species) : Option (Int × Str × Str)) with
  | some v => .ok v
  | none => .error (.fmt (str "Unable to parse age/sex/species segment: " ++ seg))

/-- `ss >> bornToken >> inToken >> season` on a fresh stream: the value
left in `season` is the third whitespace token, or the empty string when
fewer than three tokens exist (a failed string extraction leaves the
default-constructed empty string in place). -/
def thirdRead (s : Str) : Str :=
  match readTokenIs s with
  | none => []
  | some (_, r1) =>
    match readTokenIs r1 with
    | none => []
    | some (_, r2) =>
      match readTokenIs r2 with
      | none => []
      | some (t, _) => t

/-- Segment 2 of an arrival line: if the lowercased segment contains
`"born in"`, three tokens are read from it and the third is the season
(empty when fewer than three tokens are present); otherwise the trimmed
segment is the season; an empty season defaults to `"unknown"`. -/
def seasonOfSegment (seg : Str) : Str :=
  let seasonSection := toLower seg
  let season :=
    if (findSubIdx seasonSection (str "born in")).isSome then
      thirdRead seasonSection
    else trim seg
  if season = [] then str "unknown" else season

/-- Segment 3 of an arrival line: text before `" color"` (found in the
lowercased segment), trimmed; otherwise the whole trimmed segment. -/
def colorOfSegment (seg : Str) : Str :=
  match findSubIdx (toLower seg) (str " color") with
  | some pos => trim (seg.take pos)
  | none => trim seg

/-- `std::stoi`: skip whitespace, optional sign, at least one digit, stop
at the first non-digit; no digits is an invalid-argument error and an
out-of-`int`-range value is an out-of-range error. -/
def stoiM (l : Str) : Except ZooError Int :=
  match (l.dropWhile isSpaceB) with
  | [] => .error (.numeric (str "stoi"))
  | c :: cs =>
    if c = '-' then
      match readUIntIs cs with
      | none => .error (.numeric (str "stoi"))
      | some (v, _) =>
        if v ≤ 2147483648 then .ok (-(v : Int)) else .error (.numeric (str "stoi"))
    else if c = '+' then
      match readUIntIs cs with
      | none => .error (.numeric (str "stoi"))
      | some (v, _) =>
        if v ≤ 2147483647 then .ok (v : Int) else .error (.numeric (str "stoi"))
    else
      match readUIntIs (c :: cs) with
      | none => .error (.numeric (str "stoi"))
      | some (v, _) =>
        if v ≤ 2147483647 then .ok (v : Int) else .error (.numeric (str "stoi"))

/-- Segment 4 of an arrival line: the text before the first space is fed
to `std::stoi`. -/
def weightOfSegment (seg : Str) : Except ZooError Int :=
  let weightSection :=
    match findSubIdx seg [' '] with
    | some pos => seg.take pos
    | none => seg
  stoiM weightSection

/-- Segments 5 and later of an arrival line: rejoined with `", "`, a
leading case-insensitive `"from "` stripped, then trimmed. -/
def originOfParts (parts : List Str) : Str :=
  let origin := (parts.drop 5).foldl
    (fun acc p => if acc = [] then p else acc ++ str ", " ++ p) []
  let origin :=
    if (str "from ").isPrefixOf (toLower origin) then origin.drop 5 else origin
  trim origin

/-- `parseArrivalRow` of the source: split on `", "`, require at least 6
segments, then extract the positional fields. -/
def parseArrivalRow (line : Str) : Except ZooError ParsedAnimalRow := do
  let parts := split line (str ", ")
  if parts.length < 6 then
    throw (.fmt (str "Malformed arrival entry: " ++ line))
  else
    let (age, sex, species) ← parseAgeSexSpecies (parts.getD 1 [])
    let weight ← weightOfSegment (parts.getD 4 [])
    return { arrivalDate := trim (parts.getD 0 [])
             age := age, sex := sex, species := species
             birthSeason := seasonOfSegment (parts.getD 2 [])
             color := colorOfSegment (parts.getD 3 [])
             weight := weight
             origin := originOfParts parts }

/-- The four subclasses of `Animal` (a closed set). -/
inductive Species where
  | hyena | lion | tiger | bear
deriving DecidableEq, Repr

/-- The species string stored by each subclass constructor. -/
def speciesString : Species → Str
  | .hyena => str "Hyena"
  | .lion => str "Lion"
  | .tiger => str "Tiger"
  | .bear => str "Bear"

/-- `habitatName()` override of each subclass. -/
def habitatName : Species → Str
  | .hyena => str "Hyena Habitat"
  | .lion => str "Lion Habitat"
  | .tiger => str "Tiger Habitat"
  | .bear => str "Bear Habitat"

/-- The role word prefixed to the social group by each subclass. -/
def roleWord : Species → Str
  | .hyena => str "Clan"
  | .lion => str "Pride"
  | .tiger => str "Ambush"
  | .bear => str "Sleuth"

/-- An `Animal` object: shared base-class fields plus the subclass tag. -/
structure AnimalE where
  tag : Species
  name : Str
  species : Str
  uniqueId : Str
  age : Int
  sex : Str
  color : Str
  weight : Int
  origin : Str
  arrivalDate : Str
  birthDate : Str
  socialGroup : Str
deriving DecidableEq, Repr

/-- `Animal::reportLine` of the source. -/
def reportLine (a : AnimalE) : Str :=
  a.uniqueId ++ str "; " ++ a.name ++ str "; birth date " ++ a.birthDate ++
  str "; " ++ a.color ++ str " color; " ++ a.sex ++ str "; " ++
  intRepr a.weight ++ str " pounds; from " ++ a.origin ++ str "; arrived " ++
  a.arrivalDate

/-- `socialGroupLabel()` of the subclasses: `{RoleWord}: {group}`. -/
def socialGroupLabel (a : AnimalE) : Str :=
  roleWord a.tag ++ str ": " ++ a.socialGroup

/-- Lookup in a `std::map` modelled as an association list. -/
def alistGet? {α : Type} : List (Str × α) → Str → Option α
  | [], _ => none
  | (k, v) :: rest, key => if k = key then some v else alistGet? rest key

/-- `map[key] = value` (insert-or-assign). -/
def alistSet {α : Type} : List (Str × α) → Str → α → List (Str × α)
  | [], key, value => [(key, value)]
  | (k, v) :: rest, key, value =>
    if k = key then (k, value) :: rest else (k, v) :: alistSet rest key value

/-- `map::operator[]` on a non-const map: return the mapped value, value-
initializing (and inserting) a missing entry. -/
def alistIndex {α : Type} (m : List (Str × α)) (key : Str) (dflt : α) :
    α × List (Str × α) :=
  match alistGet? m key with
  | some v => (v, m)
  | none => (dflt, m ++ [(key, dflt)])

/-- The species → candidate-names map built from the names file. -/
abbrev NamesMap := List (Str × List Str)

/-- `loadAnimalNames` of the source, over the list of lines of the names
file: blank lines are skipped, a line without `':'` is a format error,
keys are lowercased and trimmed, values are split on `","`, trimmed and
empty tokens dropped; later lines with the same key overwrite. -/
def loadAnimalNames (lines : List Str) : Except ZooError NamesMap :=
  lines.foldlM
    (fun names rawLine =>
      let line := trim rawLine
      if line = [] then .ok names
      else
        match line.findIdx? (· = ':') with
        | none => .error (.fmt (str "Expected ':' in name line: " ++ line))
        | some colonPos =>
          let species := toLower (trim (line.take colonPos))
          let values := trim (line.drop (colonPos + 1))
          let tokens := split values [',']
          let trimmedTokens := (tokens.map trim).filter (· ≠ [])
          .ok (alistSet names species trimmedTokens))
    []

/-- `popNextName` of the source: `names[speciesKey]` (which inserts an
empty pool for an unseen key), then pop the front name, or synthesize
`Unnamed {speciesKey}` when the pool is empty. -/
def popNextName (names : NamesMap) (speciesKey : Str) : Str × NamesMap :=
  let (pool, names1) := alistIndex names speciesKey []
  match pool with
  | next :: rest => (next, alistSet names1 speciesKey rest)
  | [] => (str "Unnamed " ++ speciesKey, names1)

/-- The fixed group-name table of `selectSocialGroup`. -/
def socialGroups : List (Str × List Str) :=
  [(str "hyena", [str "Motto Clan", str "Serengeti Clan", str "Savannah Clan",
                  str "Spotted Clan"]),
   (str "lion", [str "Golden Pride", str "Savanna Pride", str "Sunset Pride",
                 str "River Pride"]),
   (str "tiger", [str "Ember Ambush", str "Jungle Ambush", str "River Ambush",
                  str "Shadow Ambush"]),
   (str "bear", [str "Highland Sleuth", str "Forest Sleuth",
                 str "Mountain Sleuth", str "Valley Sleuth"])]

/-- `selectSocialGroup` of the source: `options[index mod size]`, or
`"Unknown"` for a species absent from the table. -/
def selectSocialGroup (speciesKey : Str) (index : Nat) : Str :=
  match socialGroups.lookup speciesKey with
  | none => str "Unknown"
  | some options =>
    if options = [] then str "Unknown"
    else options.getD (index % options.length) []

/-- Species dispatch of the `main` loop (`row.species == "hyena"`, …). -/
def speciesOfKey (species : Str) : Except ZooError Species :=
  if species = str "hyena" then .ok .hyena
  else if species = str "lion" then .ok .lion
  else if species = str "tiger" then .ok .tiger
  else if species = str "bear" then .ok .bear
  else .error (.unsupported (str "Encountered unsupported species: " ++ species))

/-- The habitat-name → occupants map (`animalsByHabitat`). -/
def HMap := List (Str × List AnimalE)

/-- `animalsByHabitat[habitat].push_back(animal)`. -/
def habitatPush : HMap → Str → AnimalE → HMap
  | [], key, a => [(key, [a])]
  | (k, v) :: rest, key, a =>
    if k = key then (k, v ++ [a]) :: rest else (k, v) :: habitatPush rest key a

/-- The mutable containers of the `main` loop. -/
structure ZooState where
  names : NamesMap
  animals : List AnimalE
  habitats : HMap
  idCounters : Counters
  speciesCounts : Str → Nat

/-- Initial state after loading the names file. -/
def initState (names : NamesMap) : ZooState :=
  { names := names, animals := [], habitats := []
    idCounters := fun _ => 0, speciesCounts := fun _ => 0 }

/-- The body of the `main` loop for one (trimmed, non-blank) arrival
line: parse, derive id/name/birth date/group, build the subclass object,
update the counters and the habitat map. -/
def processLine (st : ZooState) (line : Str) : Except ZooError ZooState := do
  let row ← parseArrivalRow line
  let (uniqueId, counters') ← genUniqueId row.species st.idCounters
  let (name, names') := popNextName st.names row.species
  let birthDate ← genBirthDay row.age row.birthSeason row.arrivalDate
  let group := selectSocialGroup row.species (st.speciesCounts row.species)
  let tag ← speciesOfKey row.species
  let animal : AnimalE :=
    { tag := tag, name := name, species := speciesString tag
      uniqueId := uniqueId, age := row.age, sex := row.sex
      color := row.color, weight := row.weight, origin := row.origin
      arrivalDate := row.arrivalDate, birthDate := birthDate
      socialGroup := group }
  return { names := names'
           animals := st.animals ++ [animal]
           habitats := habitatPush st.habitats (habitatName tag) animal
           idCounters := counters'
           speciesCounts := fun k =>
             if k = row.species then st.speciesCounts row.species + 1
             else st.speciesCounts k }

/-- The `main` read loop over the arrival lines: trim, skip blanks,
process each remaining line, aborting on the first error. -/
def processLines : ZooState → List Str → Except ZooError ZooState
  | st, [] => .ok st
  | st, l :: rest =>
    let t := trim l
    if t = [] then processLines st rest
    else do processLines (← processLine st t) rest

/-- The fixed habitat display order of the report. -/
def habitatOrder : List Str :=
  [str "Hyena Habitat", str "Lion Habitat", str "Tiger Habitat",
   str "Bear Habitat"]

/-- One habitat section of the report.  Both uses of
`animalsByHabitat[habitat]` in the source go through `operator[]`, so the
map state is threaded (a missing habitat key is inserted with an empty
occupant list). -/
def renderHabitat (acc : Str × HMap) (habitat : Str) : Str × HMap :=
  let (out, m) := acc
  let (occupants, m1) := alistIndex m habitat []
  let header := habitat ++ str " (" ++ natRepr occupants.length ++ str ")" ++ ['\n']
  let (occupants2, m2) := alistIndex m1 habitat []
  let body := (occupants2.map
    (fun a => str "  - " ++ reportLine a ++ str " | " ++ socialGroupLabel a
      ++ ['\n'])).flatten
  (out ++ header ++ body ++ ['\n'], m2)

/-- The report-rendering loop of `main`, returning the full report text
and the habitat map as left behind by the `operator[]` accesses. -/
def renderHabitats (m : HMap) : Str × HMap :=
  habitatOrder.foldl renderHabitat ([], m)

/-- The whole run of `main`, over the lines of the two input files:
returns the text written to `zooPopulation.txt` (`none` when the run
aborts before writing it) and the process exit status. -/
def mainRun (namesLines arrivalLines : List Str) : Option Str × Nat :=
  match loadAnimalNames namesLines with
  | .error _ => (none, 1)
  | .ok names =>
    match processLines (initState names) arrivalLines with
    | .error _ => (none, 1)
    | .ok st => (some (renderHabitats st.habitats).1, 0)

/-! ### Decimal rendering and stream scanning: supporting lemmas -/

/-- Value accumulated by scanning a run of decimal digit characters. -/
def valFrom (acc : Nat) (l : Str) : Nat :=
  l.foldl (fun a c => 10 * a + (c.toNat - 48)) acc

/-- Every character of `l` is a decimal digit. -/
def allDigits (l : Str) : Prop := ∀ c ∈ l, isDigitB c = true

/-- The first character of `l`, if any, is not a decimal digit. -/
def headNotDigitB : Str → Bool
  | [] => true
  | c :: _ => !isDigitB c

lemma isSpaceB_eq_false_of_digit {c : Char} (h : isDigitB c = true) :
    isSpaceB c = false := by
  simp only [isDigitB, Bool.and_eq_true, decide_eq_true_eq] at h
  simp only [isSpaceB, Bool.or_eq_false_iff, decide_eq_false_iff_not]
  omega

lemma readDigits_append {ds rest : Str} (hd : allDigits ds)
    (hr : headNotDigitB rest = true) :
    ∀ acc, readDigits acc (ds ++ rest) = (valFrom acc ds, rest) := by
  induction ds with
  | nil =>
    intro acc
    cases rest with
    | nil => rfl
    | cons c cs =>
      simp only [headNotDigitB, Bool.not_eq_true'] at hr
      simp [readDigits, hr, valFrom]
  | cons c cs ih =>
    intro acc
    have hc : isDigitB c = true := hd c (List.mem_cons_self c cs)
    have hcs : allDigits cs := fun x hx => hd x (List.mem_cons_of_mem c hx)
    simp only [List.cons_append, readDigits, hc, if_true, List.append_eq]
    rw [ih hcs]
    simp [valFrom]

lemma valFrom_shift (l : Str) : ∀ acc, valFrom acc l = acc * 10 ^ l.length + valFrom 0 l := by
  induction l with
  | nil => intro acc; simp [valFrom]
  | cons c cs ih =>
    intro acc
    simp only [valFrom, List.foldl_cons] at *
    rw [ih (10 * acc + (c.toNat - 48)), ih (10 * 0 + (c.toNat - 48))]
    simp [List.length_cons, pow_succ]
    ring

lemma valFrom_append_singleton (l : Str) (c : Char) :
    valFrom 0 (l ++ [c]) = 10 * valFrom 0 l + (c.toNat - 48) := by
  simp [valFrom, List.foldl_append]

lemma natReprAux_zero : ∀ f, natReprAux f 0 = [] := by
  intro f; cases f <;> simp [natReprAux]

lemma digitChar_val {k : Nat} (h : k < 10) : (Nat.digitChar k).toNat - 48 = k := by
  interval_cases k <;> rfl

lemma digitChar_isDigit {k : Nat} (h : k < 10) : isDigitB (Nat.digitChar k) = true := by
  interval_cases k <;> rfl

lemma natReprAux_val : ∀ f n, n ≤ f → valFrom 0 (natReprAux f n) = n := by
  intro f
  induction f with
  | zero =>
    intro n hn
    have : n = 0 := Nat.le_zero.mp hn
    subst this; simp [natReprAux, valFrom]
  | succ f ih =>
    intro n hn
    by_cases h0 : n = 0
    · subst h0; simp [natReprAux, valFrom]
    · have hdiv : n / 10 ≤ f := by
        have : n / 10 < n := Nat.div_lt_self (Nat.pos_of_ne_zero h0) (by omega)
        omega
      simp only [natReprAux, h0, if_false]
      rw [valFrom_append_singleton, ih (n / 10) hdiv,
          digitChar_val (Nat.mod_lt n (by omega))]
      omega

lemma natRepr_val (n : Nat) : valFrom 0 (natRepr n) = n := by
  by_cases h0 : n = 0
  · subst h0; rfl
  · simp only [natRepr, h0, if_false]
    exact natReprAux_val n n le_rfl

lemma natReprAux_digits : ∀ f n, allDigits (natReprAux f n) := by
  intro f
  induction f with
  | zero => intro n c hc; simp [natReprAux] at hc
  | succ f ih =>
    intro n c hc
    by_cases h0 : n = 0
    · subst h0; simp [natReprAux] at hc
    · simp only [natReprAux, h0, if_false, List.mem_append,
                 List.mem_singleton] at hc
      rcases hc with hc | hc
      · exact ih (n / 10) c hc
      · subst hc; exact digitChar_isDigit (Nat.mod_lt n (by omega))

lemma natRepr_digits (n : Nat) : allDigits (natRepr n) := by
  by_cases h0 : n = 0
  · subst h0; intro c hc; simp only [natRepr, if_true] at hc
    simp at hc; subst hc; rfl
  · simp only [natRepr, h0, if_false]; exact natReprAux_digits n n

lemma natRepr_ne_nil (n : Nat) : natRepr n ≠ [] := by
  by_cases h0 : n = 0
  · subst h0; simp [natRepr]
  · simp only [natRepr, h0, if_false]
    obtain ⟨f, rfl⟩ : ∃ f, n = f + 1 := ⟨n - 1, by omega⟩
    simp [natReprAux, h0]

lemma valFrom_replicate_zero : ∀ k (l : Str), valFrom 0 (List.replicate k '0' ++ l) = valFrom 0 l := by
  intro k
  induction k with
  | zero => intro l; simp
  | succ k ih =>
    intro l
    have : ('0' : Char).toNat - 48 = 0 := rfl
    simp only [List.replicate_succ, List.cons_append, valFrom, List.foldl_cons, this]
    exact ih l

lemma padLeft_val (w n : Nat) : valFrom 0 (padLeft w (natRepr n)) = n := by
  rw [padLeft, valFrom_replicate_zero, natRepr_val]

lemma padLeft_natRepr_inj {w m n : Nat}
    (h : padLeft w (natRepr m) = padLeft w (natRepr n)) : m = n := by
  have := padLeft_val w m
  rw [h, padLeft_val] at this
  omega

lemma padLeft_digits {l : Str} (hl : allDigits l) (w : Nat) :
    allDigits (padLeft w l) := by
  intro c hc
  simp only [padLeft, List.mem_append] at hc
  rcases hc with hc | hc
  · have := List.eq_of_mem_replicate hc
    subst this; rfl
  · exact hl c hc

lemma padLeft_ne_nil {l : Str} (hl : l ≠ []) (w : Nat) : padLeft w l ≠ [] := by
  simp [padLeft, hl]

lemma readIntIs_digits {l rest : Str} (hl : allDigits l) (hne : l ≠ [])
    (hrest : headNotDigitB rest = true) (hbound : valFrom 0 l ≤ 2147483647) :
    readIntIs (l ++ rest) = some ((valFrom 0 l : Int), rest) := by
  obtain ⟨c, cs, rfl⟩ : ∃ c cs, l = c :: cs := by
    cases l with
    | nil => exact absurd rfl hne
    | cons c cs => exact ⟨c, cs, rfl⟩
  have hc : isDigitB c = true := hl c (List.mem_cons_self c cs)
  have hcsp : isSpaceB c = false := isSpaceB_eq_false_of_digit hc
  have hcn : 48 ≤ c.toNat ∧ c.toNat ≤ 57 := by
    simpa [isDigitB, Bool.and_eq_true, decide_eq_true_eq] using hc
  have hdash : ¬(c = '-') := by
    intro h; subst h
    have : ('-' : Char).toNat = 45 := rfl
    omega
  have hplus : ¬(c = '+') := by
    intro h; subst h
    have : ('+' : Char).toNat = 43 := rfl
    omega
  simp only [readIntIs, List.cons_append, List.dropWhile_cons, hcsp,
             Bool.false_eq_true, if_false, hdash, hplus, if_false,
             readUIntIs, hc, if_true]
  rw [show (c :: (cs ++ rest)) = (c :: cs) ++ rest from rfl,
      readDigits_append hl hrest 0]
  simp [hbound]

lemma readCharIs_nonspace {c : Char} {rest : Str} (h : isSpaceB c = false) :
    readCharIs (c :: rest) = some (c, rest) := by
  simp [readCharIs, List.dropWhile_cons, h]

lemma readIntIs_padded {n : Nat} {rest : Str} (w : Nat)
    (hbound : n ≤ 2147483647) (hrest : headNotDigitB rest = true) :
    readIntIs (padLeft w (natRepr n) ++ rest) = some ((n : Int), rest) := by
  have := readIntIs_digits (padLeft_digits (natRepr_digits n) w)
    (padLeft_ne_nil (natRepr_ne_nil n) w) hrest
    (by rw [padLeft_val]; exact hbound)
  rwa [padLeft_val] at this

lemma parseIsoDate_padded {y m d : Nat} {t : Str}
    (hy : y < 10000) (hm : m < 100) (hd : d < 100)
    (ht : headNotDigitB t = true) :
    parseIsoDate (padLeft 4 (natRepr y) ++
      '-' :: (padLeft 2 (natRepr m) ++ '-' :: (padLeft 2 (natRepr d) ++ t))) =
      .ok ⟨(y : Int), (m : Int), (d : Int)⟩ := by
  have hy' : readIntIs (padLeft 4 (natRepr y) ++
      '-' :: (padLeft 2 (natRepr m) ++ '-' :: (padLeft 2 (natRepr d) ++ t))) =
      some ((y : Int), '-' :: (padLeft 2 (natRepr m) ++ '-' :: (padLeft 2 (natRepr d) ++ t))) :=
    readIntIs_padded 4 (by omega) rfl
  have hm' : readIntIs (padLeft 2 (natRepr m) ++ '-' :: (padLeft 2 (natRepr d) ++ t)) =
      some ((m : Int), '-' :: (padLeft 2 (natRepr d) ++ t)) :=
    readIntIs_padded 2 (by omega) rfl
  have hd' : readIntIs (padLeft 2 (natRepr d) ++ t) = some ((d : Int), t) :=
    readIntIs_padded 2 (by omega) ht
  have hdash : isSpaceB '-' = false := rfl
  simp only [parseIsoDate, hy', readCharIs_nonspace hdash, hm',
             readCharIs_nonspace hdash, hd']
  simp

lemma intRepr_natCast (n : Nat) : intRepr (n : Int) = natRepr n := by
  simp [intRepr, Int.toNat_natCast]

lemma formatIsoDate_natCast (y m d : Nat) :
    formatIsoDate ⟨(y : Int), (m : Int), (d : Int)⟩ =
      padLeft 4 (natRepr y) ++
        '-' :: (padLeft 2 (natRepr m) ++ '-' :: (padLeft 2 (natRepr d) ++ [])) := by
  simp [formatIsoDate, intRepr_natCast]

/-- The claim's pattern for `parseIsoDate` inputs, following the claim's
words: exactly three integer fields (digit runs) separated by the literal
character `'-'`, as in `YYYY-MM-DD`, with nothing else in the string. -/
def isoPatternSpec (s : Str) : Bool :=
  match split s ['-'] with
  | [a, b, c] =>
    !a.isEmpty && a.all isDigitB && !b.isEmpty && b.all isDigitB &&
    !c.isEmpty && c.all isDigitB
  | _ => false

end Zoo

namespace Zoo

/-- C7.  Round-trip: a well-formed zero-padded `YYYY-MM-DD` string is
exactly `formatIsoDate ⟨y, m, d⟩` for some `y < 10000`, `m < 100`,
`d < 100`; for every such string `s`, `parseIsoDate s` succeeds with
`⟨y, m, d⟩` and `formatIsoDate (parseIsoDate s) = s`. -/
theorem c7_roundtrip (y m d : Nat) (hy : y < 10000) (hm : m < 100)
    (hd : d < 100) :
    parseIsoDate (formatIsoDate ⟨(y : Int), (m : Int), (d : Int)⟩) =
      .ok ⟨(y : Int), (m : Int), (d : Int)⟩ ∧
    (parseIsoDate (formatIsoDate ⟨(y : Int), (m : Int), (d : Int)⟩)).map
        formatIsoDate =
      .ok (formatIsoDate ⟨(y : Int), (m : Int), (d : Int)⟩) := by
  have h : parseIsoDate (formatIsoDate ⟨(y : Int), (m : Int), (d : Int)⟩) =
      .ok ⟨(y : Int), (m : Int), (d : Int)⟩ := by
    rw [formatIsoDate_natCast]
    exact parseIsoDate_padded hy hm hd rfl
  exact ⟨h, by rw [h]; rfl⟩

/-- Concrete instance of C7 at the date 2024-03-05. -/
theorem c7_roundtrip_witness :
    parseIsoDate (formatIsoDate ⟨(2024 : Int), (3 : Int), (5 : Int)⟩) =
      .ok ⟨(2024 : Int), (3 : Int), (5 : Int)⟩ ∧
    (parseIsoDate (formatIsoDate ⟨(2024 : Int), (3 : Int), (5 : Int)⟩)).map
        formatIsoDate =
      .ok (formatIsoDate ⟨(2024 : Int), (3 : Int), (5 : Int)⟩) := by
  have h := c7_roundtrip 2024 3 5 (by omega) (by omega) (by omega)
  simpa using h

/-- C3, counterexample: `parseIsoDate` accepts `"2024-03-05x"`, which is
not of the `YYYY-MM-DD` pattern (three integers separated by `'-'`), so
it does not succeed *exactly* on inputs of that pattern. -/
theorem c3_counterexample :
    parseIsoDate (str "2024-03-05x") = .ok ⟨2024, 3, 5⟩ ∧
    isoPatternSpec (str "2024-03-05x") = false := by
  constructor <;> decide

/-- C3 as amended: `parseIsoDate` succeeds on every string that *begins*
with the (zero-padded) `YYYY-MM-DD` pattern, ignoring any trailing
non-digit text; it fails with the format error when the `'-'` separators
are missing or a numeric field cannot be read; and it performs no range
validation (month 13, day 40 are accepted). -/
theorem c3_amended :
    (∀ (y m d : Nat) (t : Str), y < 10000 → m < 100 → d < 100 →
      headNotDigitB t = true →
      parseIsoDate (padLeft 4 (natRepr y) ++
          '-' :: (padLeft 2 (natRepr m) ++ '-' :: (padLeft 2 (natRepr d) ++ t))) =
        .ok ⟨(y : Int), (m : Int), (d : Int)⟩) ∧
    parseIsoDate (str "2024-13-40") = .ok ⟨2024, 13, 40⟩ ∧
    parseIsoDate (str "2024 03 05") =
      .error (.fmt (str "Invalid ISO date: 2024 03 05")) ∧
    parseIsoDate (str "abcd-03-05") =
      .error (.fmt (str "Invalid ISO date: abcd-03-05")) := by
  refine ⟨fun y m d t hy hm hd ht => parseIsoDate_padded hy hm hd ht, ?_, ?_, ?_⟩
    <;> decide

/-- Concrete instance of C3 as amended: trailing text after the day is
ignored. -/
theorem c3_amended_witness :
    parseIsoDate (padLeft 4 (natRepr 2024) ++
        '-' :: (padLeft 2 (natRepr 3) ++ '-' :: (padLeft 2 (natRepr 5) ++ str "x"))) =
      .ok ⟨(2024 : Int), (3 : Int), (5 : Int)⟩ := by
  exact c3_amended.1 2024 3 5 (str "x") (by omega) (by omega) (by omega) rfl

set_option maxRecDepth 200000 in
/-- C1.  End to end: with a names file containing `hyena: Kamari, Simba`
and the single arrival line of the claim, the run exits with status 0 and
the produced report is exactly the text whose `Hyena Habitat` section
contains the claimed line `Hy01; Kamari; birth date 2021-03-15; tan
color; female; 70 pounds; from Friguia Park, Tunisia; arrived 2024-03-05
| Clan: Motto Clan`. -/
theorem c1_end_to_end :
    mainRun [str "hyena: Kamari, Simba"]
      [str "2024-03-05, 3 years old female hyena, born in spring, tan color, 70 pounds, from Friguia Park, Tunisia"] =
    (some (str "Hyena Habitat (1)\n  - Hy01; Kamari; birth date 2021-03-15; tan color; female; 70 pounds; from Friguia Park, Tunisia; arrived 2024-03-05 | Clan: Motto Clan\n\nLion Habitat (0)\n\nTiger Habitat (0)\n\nBear Habitat (0)\n\n"), 0) ∧
    (str "Hy01; Kamari; birth date 2021-03-15; tan color; female; 70 pounds; from Friguia Park, Tunisia; arrived 2024-03-05 | Clan: Motto Clan") <:+:
      (str "Hyena Habitat (1)\n  - Hy01; Kamari; birth date 2021-03-15; tan color; female; 70 pounds; from Friguia Park, Tunisia; arrived 2024-03-05 | Clan: Motto Clan\n\nLion Habitat (0)\n\nTiger Habitat (0)\n\nBear Habitat (0)\n\n") := by
  constructor
  · decide
  · exact ⟨str "Hyena Habitat (1)\n  - ", str "\n\nLion Habitat (0)\n\nTiger Habitat (0)\n\nBear Habitat (0)\n\n", by decide⟩

/-- The season extraction as the claim words it: when the lowercased
segment contains `"born in"`, the season is the whitespace-delimited
token immediately following the first occurrence of `"born in"`;
otherwise the whole trimmed segment; empty defaults to `"unknown"`. -/
def claimedSeasonOfSegment (seg : Str) : Str :=
  let lowered := toLower seg
  let season :=
    match findSubIdx lowered (str "born in") with
    | some pos =>
      ((lowered.drop (pos + (str "born in").length)).dropWhile
        isSpaceB).takeWhile (fun c => !isSpaceB c)
    | none => trim seg
  if season = [] then str "unknown" else season

/-- C2, counterexample: for the arrival line whose segment 2 is
`"was born in spring"`, the code reads the *third* whitespace token of
the segment, yielding season `"in"`, while the token immediately
following `"born in"` is `"spring"`. -/
theorem c2_counterexample :
    (parseArrivalRow (str "2024-03-05, 3 years old female hyena, was born in spring, tan color, 70 pounds, from Friguia Park, Tunisia")).map
        (fun r => r.birthSeason) = .ok (str "in") ∧
    seasonOfSegment (str "was born in spring") = str "in" ∧
    claimedSeasonOfSegment (str "was born in spring") = str "spring" ∧
    str "in" ≠ str "spring" := by
  refine ⟨by decide, by decide, by decide, by decide⟩

/-- Whitespace tokenization of a string, as successive stream string
extractions would produce it; the fuel bounds the token count. -/
def tokensOfFuel : Nat → Str → List Str
  | 0, _ => []
  | fuel + 1, s =>
    match readTokenIs s with
    | none => []
    | some (t, r) => t :: tokensOfFuel fuel r

/-- Whitespace tokenization of a string. -/
def tokensOf (s : Str) : List Str := tokensOfFuel s.length s

lemma dropWhile_head_false {p : Char → Bool} :
    ∀ {l c cs}, List.dropWhile p l = c :: cs → p c = false := by
  intro l
  induction l with
  | nil => intro c cs h; simp [List.dropWhile] at h
  | cons a as ih =>
    intro c cs h
    by_cases hp : p a
    · rw [List.dropWhile_cons, if_pos hp] at h
      exact ih h
    · rw [List.dropWhile_cons, if_neg hp] at h
      cases h
      exact Bool.of_not_eq_true hp

lemma length_dropWhile_le (p : Char → Bool) (l : Str) :
    (l.dropWhile p).length ≤ l.length := by
  induction l with
  | nil => simp [List.dropWhile]
  | cons a as ih =>
    rw [List.dropWhile_cons]
    by_cases hp : p a
    · simp only [hp, if_true]; simp only [List.length_cons]; omega
    · simp [hp]

lemma readTokenIs_consumes {s t r : Str} (h : readTokenIs s = some (t, r)) :
    r.length < s.length ∧ t ≠ [] := by
  unfold readTokenIs at h
  cases hdw : s.dropWhile isSpaceB with
  | nil => rw [hdw] at h; exact absurd h (by simp)
  | cons c cs =>
    rw [hdw] at h
    have hc : isSpaceB c = false := dropWhile_head_false hdw
    have hlen : (c :: cs).length ≤ s.length := by
      rw [← hdw]; exact length_dropWhile_le _ _
    injection h with h1
    injection h1 with ht hr
    constructor
    · have hr' : r = List.dropWhile (fun d => !isSpaceB d) (c :: cs) := hr.symm
      rw [hr', List.dropWhile_cons]
      simp only [hc, Bool.not_false, if_true]
      have := length_dropWhile_le (fun d => !isSpaceB d) cs
      simp only [List.length_cons] at hlen
      omega
    · intro hte
      rw [← ht, List.takeWhile_cons] at hte
      simp [hc] at hte

lemma readTokenIs_nil : readTokenIs [] = none := rfl

lemma tokensOfFuel_adequate :
    ∀ f g s, s.length ≤ f → s.length ≤ g → tokensOfFuel f s = tokensOfFuel g s := by
  intro f
  induction f with
  | zero =>
    intro g s hf _
    have : s = [] := List.eq_nil_of_length_eq_zero (Nat.le_zero.mp hf)
    subst this
    cases g <;> simp [tokensOfFuel, readTokenIs_nil]
  | succ f ih =>
    intro g s hf hg
    cases g with
    | zero =>
      have : s = [] := List.eq_nil_of_length_eq_zero (Nat.le_zero.mp hg)
      subst this
      simp [tokensOfFuel, readTokenIs_nil]
    | succ g =>
      simp only [tokensOfFuel]
      cases hr : readTokenIs s with
      | none => rfl
      | some tr =>
        obtain ⟨t, r⟩ := tr
        have hc := readTokenIs_consumes hr
        dsimp only
        rw [ih g r (by omega) (by omega)]

lemma tokensOf_unfold (s : Str) :
    tokensOf s = match readTokenIs s with
      | none => []
      | some (t, r) => t :: tokensOf r := by
  unfold tokensOf
  cases s with
  | nil => simp [tokensOfFuel, readTokenIs_nil]
  | cons c cs =>
    simp only [List.length_cons, tokensOfFuel]
    cases hr : readTokenIs (c :: cs) with
    | none => rfl
    | some tr =>
      obtain ⟨t, r⟩ := tr
      have hc := readTokenIs_consumes hr
      simp only [List.length_cons] at hc
      dsimp only
      rw [tokensOfFuel_adequate cs.length r.length r (by omega) le_rfl]

lemma thirdRead_eq_tokensOf (s : Str) : thirdRead s = (tokensOf s).getD 2 [] := by
  unfold thirdRead
  rw [tokensOf_unfold]
  cases h0 : readTokenIs s with
  | none => rfl
  | some tr0 =>
    obtain ⟨t0, r0⟩ := tr0
    dsimp only
    rw [tokensOf_unfold]
    cases h1 : readTokenIs r0 with
    | none => rfl
    | some tr1 =>
      obtain ⟨t1, r1⟩ := tr1
      dsimp only
      rw [tokensOf_unfold]
      cases h2 : readTokenIs r1 with
      | none => rfl
      | some tr2 => obtain ⟨t2, r2⟩ := tr2; rfl

/-- C2 as amended: when the lowercased segment contains `"born in"`, the
season is the *third* whitespace token of the lowercased segment (empty
when fewer than three tokens exist); otherwise it is the whole trimmed
segment; an empty season defaults to `"unknown"`.  (The third token
coincides with the token following `"born in"` only when the segment
begins with `"born in"`.) -/
theorem c2_amended :
    (∀ seg : Str, seasonOfSegment seg =
      (if (findSubIdx (toLower seg) (str "born in")).isSome then
        (if (tokensOf (toLower seg)).getD 2 [] = [] then str "unknown"
         else (tokensOf (toLower seg)).getD 2 [])
       else
        (if trim seg = [] then str "unknown" else trim seg))) ∧
    seasonOfSegment (str "born in spring") = str "spring" ∧
    seasonOfSegment (str "was born in spring") = str "in" ∧
    seasonOfSegment (str "  Fall ") = str "Fall" ∧
    seasonOfSegment (str "born in") = str "unknown" := by
  refine ⟨?_, by decide, by decide, by decide, by decide⟩
  intro seg
  unfold seasonOfSegment
  by_cases hb : (findSubIdx (toLower seg) (str "born in")).isSome
  · simp only [hb, if_true, thirdRead_eq_tokensOf]
  · simp only [Bool.not_eq_true] at hb
    simp only [hb, Bool.false_eq_true, if_false]

/-! ### Frame property of report rendering (C4) -/

/-- What rendering is allowed to do to the habitat map: entries present
before are untouched, and any entry it creates is empty. -/
def MapPreserves (m m' : HMap) : Prop :=
  ∀ k, ((alistGet? m k).isSome → alistGet? m' k = alistGet? m k) ∧
       (alistGet? m k = none →
         alistGet? m' k = none ∨ alistGet? m' k = some [])

lemma alistGet?_append {α : Type} (m : List (Str × α)) (key k : Str) (d : α) :
    alistGet? (m ++ [(key, d)]) k =
      match alistGet? m k with
      | some v => some v
      | none => if key = k then some d else none := by
  induction m with
  | nil => simp [alistGet?]
  | cons p rest ih =>
    obtain ⟨pk, pv⟩ := p
    by_cases hk : pk = k
    · simp [alistGet?, hk]
    · simp only [List.cons_append, alistGet?, hk, if_false]
      exact ih

lemma mapPreserves_refl (m : HMap) : MapPreserves m m := by
  intro k
  exact ⟨fun _ => rfl, fun h => Or.inl h⟩

lemma mapPreserves_trans {a b c : HMap} (h1 : MapPreserves a b)
    (h2 : MapPreserves b c) : MapPreserves a c := by
  intro k
  constructor
  · intro hs
    rw [(h2 k).1, (h1 k).1 hs]
    rw [(h1 k).1 hs]; exact hs
  · intro hn
    rcases (h1 k).2 hn with hb | hb
    · rcases (h2 k).2 hb with hc | hc
      · exact Or.inl hc
      · exact Or.inr hc
    · have : alistGet? c k = alistGet? b k := (h2 k).1 (by simp [hb])
      rw [this, hb]
      exact Or.inr rfl

lemma mapPreserves_index (m : HMap) (key : Str) :
    MapPreserves m (alistIndex m key []).2 := by
  intro k
  unfold alistIndex
  cases hg : alistGet? m key with
  | some v => exact ⟨fun _ => rfl, fun h => Or.inl h⟩
  | none =>
    simp only
    constructor
    · intro hs
      rw [alistGet?_append]
      cases hk : alistGet? m k with
      | some v => rfl
      | none => rw [hk] at hs; simp at hs
    · intro hn
      rw [alistGet?_append, hn]
      by_cases hkk : key = k
      · simp [hkk]
      · simp [hkk]

lemma renderHabitat_snd (out : Str) (m : HMap) (h : Str) :
    (renderHabitat (out, m) h).2 =
      (alistIndex (alistIndex m h []).2 h []).2 := rfl

lemma mapPreserves_renderHabitat (out : Str) (m : HMap) (h : Str) :
    MapPreserves m (renderHabitat (out, m) h).2 := by
  rw [renderHabitat_snd]
  exact mapPreserves_trans (mapPreserves_index m h)
    (mapPreserves_index (alistIndex m h []).2 h)

lemma mapPreserves_foldl (hs : List Str) :
    ∀ (out : Str) (m : HMap),
      MapPreserves m (List.foldl renderHabitat (out, m) hs).2 := by
  induction hs with
  | nil => intro out m; exact mapPreserves_refl m
  | cons h rest ih =>
    intro out m
    rw [List.foldl_cons]
    have hstep : MapPreserves m (renderHabitat (out, m) h).2 :=
      mapPreserves_renderHabitat out m h
    have : renderHabitat (out, m) h =
        ((renderHabitat (out, m) h).1, (renderHabitat (out, m) h).2) := rfl
    rw [this]
    exact mapPreserves_trans hstep
      (ih (renderHabitat (out, m) h).1 (renderHabitat (out, m) h).2)

/-- C4, counterexample: rendering an empty habitat map (a run with zero
parsed animals) inserts an empty `Hyena Habitat` entry via `operator[]`,
so the mapping after rendering differs from the mapping before. -/
theorem c4_counterexample :
    alistGet? (renderHabitats ([] : HMap)).2 (str "Hyena Habitat") = some [] ∧
    alistGet? ([] : HMap) (str "Hyena Habitat") = none := by
  constructor <;> decide

/-- C4 as amended: during rendering the habitat map is read through
`operator[]`, which never modifies an entry that exists when rendering
begins, but inserts an empty occupant list for each of the four fixed
habitats missing from the map (e.g. habitats with zero occupants). -/
theorem c4_amended (m : HMap) (k : Str) :
    ((alistGet? m k).isSome →
      alistGet? (renderHabitats m).2 k = alistGet? m k) ∧
    (alistGet? m k = none →
      alistGet? (renderHabitats m).2 k = none ∨
      alistGet? (renderHabitats m).2 k = some []) := by
  have := mapPreserves_foldl habitatOrder [] m k
  exact this

/-- Concrete instance of C4 as amended: an entry present before rendering
is unchanged by rendering. -/
theorem c4_amended_witness :
    alistGet? (renderHabitats [(str "Hyena Habitat", [])]).2
      (str "Hyena Habitat") = some [] := by
  have h := (c4_amended [(str "Hyena Habitat", [])] (str "Hyena Habitat")).1
    (by decide)
  rw [h]
  decide

/-- C6.  `genBirthDay` is a pure derivation: the birth year is the
arrival year minus the age; the month/day come from the fixed season
table (case-insensitively) when the season is one of its keys, else from
the arrival date; including the spec's two concrete examples. -/
theorem c6_genBirthDay (age : Int) (season s : Str) (y m d : Int)
    (hparse : parseIsoDate s = .ok ⟨y, m, d⟩) :
    ((toLower season = str "spring" →
       genBirthDay age season s = .ok (formatIsoDate ⟨y - age, 3, 15⟩)) ∧
     (toLower season = str "summer" →
       genBirthDay age season s = .ok (formatIsoDate ⟨y - age, 6, 15⟩)) ∧
     (toLower season = str "fall" →
       genBirthDay age season s = .ok (formatIsoDate ⟨y - age, 9, 15⟩)) ∧
     (toLower season = str "autumn" →
       genBirthDay age season s = .ok (formatIsoDate ⟨y - age, 9, 15⟩)) ∧
     (toLower season = str "winter" →
       genBirthDay age season s = .ok (formatIsoDate ⟨y - age, 12, 15⟩)) ∧
     (toLower season ≠ str "spring" → toLower season ≠ str "summer" →
      toLower season ≠ str "fall" → toLower season ≠ str "autumn" →
      toLower season ≠ str "winter" →
       genBirthDay age season s = .ok (formatIsoDate ⟨y - age, m, d⟩))) ∧
    genBirthDay 5 (str "Winter") (str "2024-04-02") = .ok (str "2019-12-15") ∧
    genBirthDay 5 (str "martian-season") (str "2024-04-02") =
      .ok (str "2019-04-02") := by
  refine ⟨⟨?_, ?_, ?_, ?_, ?_, ?_⟩, by decide, by decide⟩
  · intro hs
    have hlk : seasonToDate.lookup (toLower season) = some (3, 15) := by
      rw [hs]; decide
    simp [genBirthDay, hparse, hlk]
  · intro hs
    have hlk : seasonToDate.lookup (toLower season) = some (6, 15) := by
      rw [hs]; decide
    simp [genBirthDay, hparse, hlk]
  · intro hs
    have hlk : seasonToDate.lookup (toLower season) = some (9, 15) := by
      rw [hs]; decide
    simp [genBirthDay, hparse, hlk]
  · intro hs
    have hlk : seasonToDate.lookup (toLower season) = some (9, 15) := by
      rw [hs]; decide
    simp [genBirthDay, hparse, hlk]
  · intro hs
    have hlk : seasonToDate.lookup (toLower season) = some (12, 15) := by
      rw [hs]; decide
    simp [genBirthDay, hparse, hlk]
  · intro h1 h2 h3 h4 h5
    have b1 : (toLower season == str "spring") = false :=
      beq_eq_false_iff_ne.mpr h1
    have b2 : (toLower season == str "summer") = false :=
      beq_eq_false_iff_ne.mpr h2
    have b3 : (toLower season == str "fall") = false :=
      beq_eq_false_iff_ne.mpr h3
    have b4 : (toLower season == str "autumn") = false :=
      beq_eq_false_iff_ne.mpr h4
    have b5 : (toLower season == str "winter") = false :=
      beq_eq_false_iff_ne.mpr h5
    have hlk : seasonToDate.lookup (toLower season) = none := by
      simp [seasonToDate, List.lookup, b1, b2, b3, b4, b5]
    simp [genBirthDay, hparse, hlk]

/-- Concrete instance of C6: an autumn arrival of age 7 on 2030-01-02. -/
theorem c6_genBirthDay_witness :
    genBirthDay 7 (str "Autumn") (str "2030-01-02") =
      .ok (formatIsoDate ⟨2030 - 7, 9, 15⟩) := by
  have h := c6_genBirthDay 7 (str "Autumn") (str "2030-01-02") 2030 1 2
    (by decide)
  exact h.1.2.2.2.1 (by decide)

/-! ### The malformed-entry check of `parseArrivalRow` (C9) -/

lemma parseAgeSexSpecies_error {seg : Str} {e : ZooError}
    (h : parseAgeSexSpecies seg = .error e) :
    e = .fmt (str "Unable to parse age/sex/species segment: " ++ seg) := by
  unfold parseAgeSexSpecies at h
  split at h
  · exact absurd h (by simp)
  · injection h with h1
    exact h1.symm

lemma stoiM_error {l : Str} {e : ZooError} (h : stoiM l = .error e) :
    e = .numeric (str "stoi") := by
  unfold stoiM at h
  repeat' split at h
  all_goals first
    | (injection h with h1; exact h1.symm)
    | exact absurd h (by simp)

lemma weightOfSegment_error {seg : Str} {e : ZooError}
    (h : weightOfSegment seg = .error e) : e = .numeric (str "stoi") := by
  unfold weightOfSegment at h
  exact stoiM_error h

lemma unable_ne_malformed (x y : Str) :
    ZooError.fmt (str "Unable to parse age/sex/species segment: " ++ x) ≠
      ZooError.fmt (str "Malformed arrival entry: " ++ y) := by
  intro h
  injection h with hmsg
  have e1 : str "Unable to parse age/sex/species segment: " =
      'U' :: str "nable to parse age/sex/species segment: " := rfl
  have e2 : str "Malformed arrival entry: " =
      'M' :: str "alformed arrival entry: " := rfl
  rw [e1, e2, List.cons_append, List.cons_append] at hmsg
  injection hmsg with hc
  exact absurd hc (by decide)

/-- C9.  `parseArrivalRow` fails with `FormatError("Malformed arrival
entry")` exactly when splitting the line on `", "` yields fewer than 6
segments; with at least 6 segments the check passes (later failures carry
different errors). -/
theorem c9_malformed_iff (line : Str) :
    parseArrivalRow line =
        .error (.fmt (str "Malformed arrival entry: " ++ line)) ↔
      (split line (str ", ")).length < 6 := by
  constructor
  · intro h
    by_contra hge
    unfold parseArrivalRow at h
    rw [if_neg hge] at h
    cases ha : parseAgeSexSpecies ((split line (str ", ")).getD 1 []) with
    | error e =>
      rw [ha] at h
      simp only [Bind.bind, Except.bind] at h
      injection h with h1
      exact unable_ne_malformed _ _ (parseAgeSexSpecies_error ha ▸ h1)
    | ok v =>
      obtain ⟨age, sex, species⟩ := v
      rw [ha] at h
      simp only [Bind.bind, Except.bind] at h
      cases hw : weightOfSegment ((split line (str ", ")).getD 4 []) with
      | error e =>
        rw [hw] at h
        injection h with h1
        rw [weightOfSegment_error hw] at h1
        exact ZooError.noConfusion h1
      | ok w =>
        rw [hw] at h
        simp [Pure.pure, Except.pure] at h
  · intro h
    unfold parseArrivalRow
    rw [if_pos h]
    rfl

/-! ### Unique id sequences (C8, C10) -/

/-- The ids produced by `n` successive `genUniqueId` calls for one
species, threading the counter map. -/
def genSeqFrom : Counters → Str → Nat → List Str
  | _, _, 0 => []
  | c, species, n + 1 =>
    match genUniqueId species c with
    | .ok idc => idc.1 :: genSeqFrom idc.2 species n
    | .error _ => []

lemma genUniqueId_ok {species p : Str} (hp : speciesPrefix species = .ok p)
    (c : Counters) :
    genUniqueId species c =
      .ok (p ++ padLeft 2 (natRepr (c p + 1)),
           fun k => if k = p then c p + 1 else c k) := by
  simp [genUniqueId, hp, Bind.bind, Except.bind, Pure.pure, Except.pure]

lemma genSeqFrom_formula {species p : Str}
    (hp : speciesPrefix species = .ok p) :
    ∀ n c, genSeqFrom c species n =
      (List.range n).map (fun i => p ++ padLeft 2 (natRepr (c p + i + 1))) := by
  intro n
  induction n with
  | zero => intro c; simp [genSeqFrom]
  | succ n ih =>
    intro c
    have ihc := ih (fun k => if k = p then c p + 1 else c k)
    have hcp : (if p = p then c p + 1 else c p) = c p + 1 := if_pos rfl
    rw [hcp] at ihc
    rw [genSeqFrom, genUniqueId_ok hp c]
    dsimp only
    rw [ihc, List.range_succ_eq_map, List.map_cons, List.map_map]
    congr 1
    apply List.map_congr_left
    intro i _
    simp only [Function.comp]
    exact congrArg (fun t => p ++ padLeft 2 (natRepr t))
      (show c p + 1 + i + 1 = c p + (i + 1) + 1 by omega)

lemma natReprAux_ne_nil {f n : Nat} (hn : 0 < n) (hf : n ≤ f) :
    natReprAux f n ≠ [] := by
  cases f with
  | zero => omega
  | succ f =>
    have h0 : n ≠ 0 := by omega
    simp [natReprAux, h0]

lemma natRepr_length_ge_two {n : Nat} (hn : 10 ≤ n) :
    2 ≤ (natRepr n).length := by
  have h0 : n ≠ 0 := by omega
  obtain ⟨f, rfl⟩ : ∃ f, n = f + 1 := ⟨n - 1, by omega⟩
  simp only [natRepr, h0, if_false, natReprAux, Nat.succ_ne_zero]
  rw [List.length_append]
  have hne : natReprAux f ((f + 1) / 10) ≠ [] :=
    natReprAux_ne_nil (by omega) (by omega)
  have := List.length_pos.mpr hne
  simp only [List.length_cons, List.length_nil]
  omega

/-- C8.  For a supported species, successive `genUniqueId` calls produce
the strictly increasing, gap-free sequence 1, 2, … rendered behind the
species' fixed two-letter prefix with minimum-width-2 zero padding, so
the first two ids are `{Prefix}01` and `{Prefix}02` and all ids of a run
are pairwise distinct. -/
theorem c8_unique_ids (species p : Str) (n : Nat)
    (hp : speciesPrefix species = .ok p) :
    genSeqFrom (fun _ => 0) species n =
      (List.range n).map (fun i => p ++ padLeft 2 (natRepr (i + 1))) ∧
    (genSeqFrom (fun _ => 0) species n).Nodup ∧
    genSeqFrom (fun _ => 0) species 2 = [p ++ str "01", p ++ str "02"] := by
  have h0 : ∀ k, genSeqFrom (fun _ => 0) species k =
      (List.range k).map (fun i => p ++ padLeft 2 (natRepr (i + 1))) := by
    intro k
    rw [genSeqFrom_formula hp k (fun _ => 0)]
    simp
  refine ⟨h0 n, ?_, ?_⟩
  · rw [h0 n]
    refine List.Nodup.map ?_ (List.nodup_range n)
    intro i j hij
    have h2 := padLeft_natRepr_inj (List.append_cancel_left hij)
    omega
  · rw [h0 2]
    have e1 : padLeft 2 (natRepr (0 + 1)) = str "01" := by decide
    have e2 : padLeft 2 (natRepr (1 + 1)) = str "02" := by decide
    rw [show List.range 2 = [0, 1] from rfl]
    simp [e1, e2]

/-- Concrete instance of C8 for hyenas: the first two ids. -/
theorem c8_unique_ids_witness :
    genSeqFrom (fun _ => 0) (str "hyena") 2 =
      [str "Hy" ++ str "01", str "Hy" ++ str "02"] ∧
    (genSeqFrom (fun _ => 0) (str "hyena") 2).Nodup := by
  have h := c8_unique_ids (str "hyena") (str "Hy") 2 (by decide)
  exact ⟨h.2.2, h.2.1⟩

set_option maxRecDepth 400000 in
/-- C10.  The two-digit padding of `genUniqueId` is a minimum width, not
a truncation: from the 10th id on, the full decimal rendering is kept
(the 100th hyena id is `Hy100`), and ids with distinct sequence numbers
are distinct no matter how many animals of the species arrive. -/
theorem c10_no_truncation :
    (∀ n, 10 ≤ n → padLeft 2 (natRepr n) = natRepr n) ∧
    (genSeqFrom (fun _ => 0) (str "hyena") 100).getD 99 [] = str "Hy100" ∧
    (∀ m n : Nat, m ≠ n →
      str "Hy" ++ padLeft 2 (natRepr m) ≠ str "Hy" ++ padLeft 2 (natRepr n)) := by
  refine ⟨?_, ?_, ?_⟩
  · intro n hn
    have hlen : 2 ≤ (natRepr n).length := natRepr_length_ge_two hn
    simp [padLeft, Nat.sub_eq_zero_of_le hlen]
  · decide
  · intro m n hmn h
    exact hmn (padLeft_natRepr_inj (List.append_cancel_left h))

/-- Concrete instance of C10: no truncation at 100, and id distinctness. -/
theorem c10_no_truncation_witness :
    padLeft 2 (natRepr 100) = natRepr 100 ∧
    str "Hy" ++ padLeft 2 (natRepr 1) ≠ str "Hy" ++ padLeft 2 (natRepr 100) := by
  exact ⟨c10_no_truncation.1 100 (by omega),
         c10_no_truncation.2.2 1 100 (by omega)⟩

/-! ### Abort semantics of the run (C5) -/

/-- Whether an `Except` computation succeeded. -/
def exceptOk {α : Type} : Except ZooError α → Bool
  | .ok _ => true
  | .error _ => false

/-- Whether one (trimmed, non-blank) arrival line is processed without an
exception: all the fallible steps of the loop body, in order. -/
def lineOK (t : Str) : Bool :=
  exceptOk (do
    let row ← parseArrivalRow t
    let _ ← speciesPrefix row.species
    let _ ← genBirthDay row.age row.birthSeason row.arrivalDate
    let _ ← speciesOfKey row.species
    pure () : Except ZooError Unit)

lemma exceptOk_true {α : Type} {x : Except ZooError α}
    (h : exceptOk x = true) : ∃ v, x = .ok v := by
  cases x with
  | ok v => exact ⟨v, rfl⟩
  | error e => simp [exceptOk] at h

lemma exceptOk_false {α : Type} {x : Except ZooError α}
    (h : exceptOk x = false) : ∃ e, x = .error e := by
  cases x with
  | ok v => simp [exceptOk] at h
  | error e => exact ⟨e, rfl⟩

lemma processLine_isOk (st : ZooState) (t : Str) :
    exceptOk (processLine st t) = lineOK t := by
  unfold processLine lineOK
  cases hrow : parseArrivalRow t with
  | error e => simp [Bind.bind, Except.bind, exceptOk]
  | ok row =>
    simp only [Bind.bind, Except.bind]
    unfold genUniqueId
    cases hsp : speciesPrefix row.species with
    | error e => simp [Bind.bind, Except.bind, exceptOk]
    | ok p =>
      simp only [Bind.bind, Except.bind, Pure.pure, Except.pure]
      cases hbd : genBirthDay row.age row.birthSeason row.arrivalDate with
      | error e => simp [exceptOk]
      | ok bd =>
        cases hsk : speciesOfKey row.species with
        | error e => simp [exceptOk]
        | ok tag => simp [exceptOk]

lemma processLines_ok {lines : List Str} :
    ∀ st, (∀ l ∈ lines, trim l = [] ∨ lineOK (trim l) = true) →
      ∃ st', processLines st lines = .ok st' := by
  induction lines with
  | nil => intro st _; exact ⟨st, rfl⟩
  | cons l rest ih =>
    intro st hall
    have hl := hall l (List.mem_cons_self l rest)
    have hrest := fun x hx => hall x (List.mem_cons_of_mem l hx)
    unfold processLines
    by_cases ht : trim l = []
    · rw [if_pos ht]
      exact ih st hrest
    · rw [if_neg ht]
      rcases hl with h | h
      · exact absurd h ht
      · have hok : exceptOk (processLine st (trim l)) = true := by
          rw [processLine_isOk]; exact h
        obtain ⟨st1, hst1⟩ := exceptOk_true hok
        rw [hst1]
        simp only [Bind.bind, Except.bind]
        exact ih st1 hrest

lemma processLines_error {lines : List Str} :
    ∀ st, (∃ l ∈ lines, trim l ≠ [] ∧ lineOK (trim l) = false) →
      ∃ e, processLines st lines = .error e := by
  induction lines with
  | nil => intro st h; simp at h
  | cons l rest ih =>
    intro st h
    obtain ⟨x, hx, hxt, hxf⟩ := h
    unfold processLines
    rcases List.mem_cons.mp hx with rfl | hxr
    · rw [if_neg hxt]
      have hbad : exceptOk (processLine st (trim x)) = false := by
        rw [processLine_isOk]; exact hxf
      obtain ⟨e, he⟩ := exceptOk_false hbad
      rw [he]
      exact ⟨e, rfl⟩
    · by_cases ht : trim l = []
      · rw [if_pos ht]
        exact ih st ⟨x, hxr, hxt, hxf⟩
      · rw [if_neg ht]
        cases hp : processLine st (trim l) with
        | error e => exact ⟨e, rfl⟩
        | ok st1 =>
          simp only [Bind.bind, Except.bind]
          exact ih st1 ⟨x, hxr, hxt, hxf⟩

/-- C5.  Once the names file has loaded, if processing any (non-blank)
arrival line raises an error the run aborts: no report text is produced
and the exit status is 1; if every line succeeds, a report is produced
and the exit status is 0. -/
theorem c5_abort (namesLines arrivals : List Str) (names : NamesMap)
    (hload : loadAnimalNames namesLines = .ok names) :
    ((∃ l ∈ arrivals, trim l ≠ [] ∧ lineOK (trim l) = false) →
      mainRun namesLines arrivals = (none, 1)) ∧
    ((∀ l ∈ arrivals, trim l = [] ∨ lineOK (trim l) = true) →
      ∃ report, mainRun namesLines arrivals = (some report, 0)) := by
  constructor
  · intro hex
    obtain ⟨e, he⟩ := processLines_error (initState names) hex
    simp [mainRun, hload, he]
  · intro hall
    obtain ⟨st', hst⟩ := processLines_ok (initState names) hall
    exact ⟨(renderHabitats st'.habitats).1, by simp [mainRun, hload, hst]⟩

/-- Concrete instance of C5: a malformed arrival line aborts the run with
no report and exit status 1. -/
theorem c5_abort_witness :
    mainRun [str "hyena: Kamari"] [str "not a valid line"] = (none, 1) := by
  have h := c5_abort [str "hyena: Kamari"] [str "not a valid line"]
    [(str "hyena", [str "Kamari"])] (by decide)
  exact h.1 (by decide)

end Zoo
